import Mathlib

/-!
# Verification of the resumable, checkpointed inbox-aggregation engine

Shallow embedding of the scan core (scan driver `buildSenderReportBatch`,
normalizer `parseFrom` / `parseListUnsubscribeHeader`, run aggregator
`processMessages`, merge `mergeRunMapUsingIndex` / `buildRowFromBucket`,
checkpoint `checkpoint`) together with proofs and counterexamples for the
specification's claims.

Modelling conventions:
* JS strings are Lean `String`s; JS string comparison (`>` on ISO timestamps)
  is the lexicographic order on `String`.
* JS `null` for an optional string field is `Option.none`; JS truthiness of a
  `string | null` value (`""` and `null` falsy) is `optTruthy`.
* `x || y` on strings is `jsOr`; `.toLowerCase()` on the ASCII data handled
  here is `jsToLower` (via `Char.toLower`); `.trim()` is `jsTrim`.
* The spreadsheet is a list of data rows; physical sheet row `n` is data
  index `n - 2` (row 1 is the header).  The hidden index sheet is a list of
  `(key, rowNumber)` pairs.
* Gmail search pagination `search(q, offset, limit)` is `pageAt`.
* Wall-clock time is a tick counter advanced by one per thread handled in
  the inner loop; the hard limit and the checkpoint interval are in ticks.
-/

namespace InboxScan

/-! ## JS string helpers -/

/-- JS `x || y` for strings: `y` when `x` is falsy (empty). -/
def jsOr (s t : String) : String := if s = "" then t else s

/-- JS truthiness of a `string | null` value: `null` and `""` are falsy. -/
def optTruthy (o : Option String) : Bool := o.getD "" ≠ ""

/-- JS `x || y` where `x : string | null` and the result is a string. -/
def jsOrOpt (o : Option String) (d : String) : String :=
  if optTruthy o then o.getD "" else d

/-- JS `x || ''` for `x : string | null` (used when reading bucket fields). -/
def optStr (o : Option String) : String := o.getD ""

/-- JS `.toLowerCase()` on one char (ASCII range, as in the addresses handled
here); `Char.toLower` maps `A..Z` to `a..z` and fixes everything else. -/
def jsToLower (s : String) : String := ⟨s.data.map Char.toLower⟩

/-- JS `.trim()`: strip leading and trailing whitespace. -/
def jsTrim (s : String) : String :=
  ⟨((s.data.dropWhile Char.isWhitespace).reverse.dropWhile Char.isWhitespace).reverse⟩

/-- JS `s < t` on strings: lexicographic comparison, computed on the
character lists (kernel-reducible; agrees with the order on `String`,
see `strLt_iff` below). -/
def strLt (s t : String) : Bool := decide (s.data < t.data)

/-- JS `s.replace(pat, '')` for a plain-string pattern: remove the first
occurrence of `pat`. -/
def removeFirst : List Char → List Char → List Char
  | [], _ => []
  | c :: rest, pat =>
    if pat.isPrefixOf (c :: rest) then (c :: rest).drop pat.length
    else c :: removeFirst rest pat

/-- JS `s.replace(/^L|R$/g, '')`: strip a single leading char `l` and a single
trailing char `r` (used for `/^"|"$/` and `/^<|>$/`). -/
def stripOnce (l r : Char) (s : String) : String :=
  let d := s.data
  let d := match d with
    | c :: rest => if c = l then rest else d
    | [] => d
  let d := match d.reverse with
    | c :: rest => if c = r then rest.reverse else d
    | [] => d
  ⟨d⟩

/-! ## Record normalizer (`parseFrom`, lines 2469–2488) -/

/-- Leftmost match of `/<([^>]+)>/`: returns the captured group (the chars
between the brackets).  On failure at a given `<` the scan restarts one
character later, as a backtracking regex engine does. -/
def angleMatch : List Char → Option (List Char)
  | [] => none
  | c :: rest =>
    if c = '<' then
      let inner := rest.takeWhile (· ≠ '>')
      match rest.drop inner.length, inner with
      | '>' :: _, _ :: _ => some inner
      | _, _ => angleMatch rest
    else angleMatch rest

/-- Char class `[A-Z0-9._%+-]` with `/i`. -/
def classA (c : Char) : Bool :=
  c.isAlpha || c.isDigit || c = '.' || c = '_' || c = '%' || c = '+' || c = '-'

/-- Char class `[A-Z0-9.-]` with `/i`. -/
def classB (c : Char) : Bool := c.isAlpha || c.isDigit || c = '.' || c = '-'

/-- Attempt `\.[A-Z]{2,}` with the dot at index `m` of the domain run. -/
def tryDotAt (bRun : List Char) (m : Nat) : Option (List Char) :=
  if bRun.getD m ' ' = '.' then
    let tld := (bRun.drop (m + 1)).takeWhile Char.isAlpha
    if 2 ≤ tld.length then some (bRun.take m ++ '.' :: tld) else none
  else none

/-- Greedy backtracking for `[A-Z0-9.-]+\.[A-Z]{2,}` over the maximal
`classB` run: try the dot as far right as possible (largest `m ≥ 1`). -/
def tldSearch (bRun : List Char) : Nat → Option (List Char)
  | 0 => none
  | m + 1 =>
    match tryDotAt bRun (m + 1) with
    | some r => some r
    | none => tldSearch bRun m

/-- Match `/[A-Z0-9._%+-]+@[A-Z0-9.-]+\.[A-Z]{2,}/i` anchored at the head of
`s`.  The greedy `[A-Z0-9._%+-]+` must end exactly at an `@` (no `@` in the
class, so backtracking inside the run cannot help). -/
def bareMatchAt (s : List Char) : Option (List Char) :=
  let aRun := s.takeWhile classA
  if aRun.isEmpty then none
  else
    match s.drop aRun.length with
    | '@' :: rest =>
      let bRun := rest.takeWhile classB
      match tldSearch bRun (bRun.length - 1) with
      | some matched => some (aRun ++ '@' :: matched)
      | none => none
    | _ => none

/-- Leftmost match of the bare address regex: scan start positions left to
right. -/
def bareSearch : List Char → Option (List Char)
  | [] => none
  | c :: rest =>
    match bareMatchAt (c :: rest) with
    | some r => some r
    | none => bareSearch rest

/-- Result of `parseFrom`: `{ email, name }` with `name: string | null`. -/
structure ParsedFrom where
  email : String
  name : Option String
deriving DecidableEq, Repr

/-- Char class of `/^[("'\s]+/`. -/
def leadStrip (c : Char) : Bool := c = '(' || c = '"' || c = '\'' || c.isWhitespace

/-- Char class of `/[)"'\s]+$/`. -/
def trailStrip (c : Char) : Bool := c = ')' || c = '"' || c = '\'' || c.isWhitespace

/-- Model of `name.replace(/^[("'\s]+|[)"'\s]+$/g, '')`. -/
def stripNameEnds (s : String) : String :=
  ⟨((s.data.dropWhile leadStrip).reverse.dropWhile trailStrip).reverse⟩

/-- Model of `parseFrom(rawFrom)`: angle-bracket strategy first, then bare address
pattern; lowercases the email; `name || null`. -/
def parseFrom (rawFrom : String) : ParsedFrom :=
  let s := rawFrom.data
  let (email, name) :=
    match angleMatch s with
    | some inner =>
      let email := jsTrim ⟨inner⟩
      let matched := '<' :: (inner ++ ['>'])
      let name := stripOnce '"' '"' (jsTrim ⟨removeFirst s matched⟩)
      (email, name)
    | none =>
      match bareSearch s with
      | some matched =>
        let email := jsTrim ⟨matched⟩
        let name := stripNameEnds (jsTrim ⟨removeFirst s matched⟩)
        (email, name)
      | none => ("", "")
  let email := if email ≠ "" then jsToLower email else email
  let name := if name ≠ "" then stripOnce '"' '"' name else name
  { email, name := if name = "" then none else some name }

/-! ## `parseListUnsubscribeHeader` (lines 2490–2500) -/

structure UnsubInfo where
  url : Option String
  mailto : Option String
deriving DecidableEq, Repr

/-- Case-insensitive prefix test (`/^pat/i` for an ASCII pattern). -/
def startsWithCI (pat s : String) : Bool := pat.data.isPrefixOf (jsToLower s).data

/-- JS `s.split(',')` (kernel-reducible version of `String.splitOn ","`). -/
def splitCommaAux : List Char → List Char → List String
  | [], acc => [⟨acc.reverse⟩]
  | c :: rest, acc =>
    if c = ',' then ⟨acc.reverse⟩ :: splitCommaAux rest []
    else splitCommaAux rest (c :: acc)

def jsSplitComma (s : String) : List String := splitCommaAux s.data []

/-- Model of `parseListUnsubscribeHeader(headerValue)`: split on commas, trim, strip
one pair of angle brackets, keep the first `http(s)://` token and the first
`mailto:` token; `null` when neither is present. -/
def parseListUnsubscribeHeader (headerValue : String) : Option UnsubInfo :=
  if headerValue = "" then none
  else
    let parts := (jsSplitComma headerValue).map (fun s => stripOnce '<' '>' (jsTrim s))
    let um := parts.foldl (fun (um : Option String × Option String) p =>
      if startsWithCI "http://" p || startsWithCI "https://" p then
        (um.1 <|> some p, um.2)
      else if startsWithCI "mailto:" p then (um.1, um.2 <|> some p)
      else um) (none, none)
    if um.1.isSome || um.2.isSome then some ⟨um.1, um.2⟩ else none

/-! ## Run aggregator (`processMessages`, lines 1989–2029) -/

/-- One raw message.  `dateIso` is the already-formatted
`Utilities.formatDate(m.getDate(), tz, "yyyy-MM-dd'T'HH:mm:ssXXX")` value;
`rawFrom` is `m.getFrom() || ''`; `unsubHeader` is
`m.getHeader('List-Unsubscribe') || ''`. -/
structure Msg where
  inInbox : Bool
  rawFrom : String
  subject : String
  dateIso : String
  unsubHeader : String
deriving DecidableEq, Repr

/-- Model of `SenderBucket` (cycle-scoped, per key). -/
structure SenderBucket where
  email : String
  name : Option String
  count : Nat
  sampleSubject : Option String
  lastSeen : Option String
  unsubUrl : Option String
  unsubMailto : Option String
deriving DecidableEq, Repr

/-- The `runMap` object: insertion-ordered association list (JS object keys
enumerate in insertion order for string keys). -/
abbrev RunMap := List (String × SenderBucket)

def rmLookup (rm : RunMap) (k : String) : Option SenderBucket :=
  (rm.find? (fun e => e.1 = k)).map (·.2)

def rmUpdate (rm : RunMap) (k : String) (f : SenderBucket → SenderBucket) : RunMap :=
  rm.map (fun e => if e.1 = k then (e.1, f e.2) else e)

/-- The fresh bucket created on first sight of a key (lines 2009–2017). -/
def freshBucket (email : String) (name : Option String) : SenderBucket :=
  { email, name, count := 0, sampleSubject := none, lastSeen := none,
    unsubUrl := none, unsubMailto := none }

/-- Statement `bucket.count += 1` (line 2021). -/
def bumpCount (b : SenderBucket) : SenderBucket := { b with count := b.count + 1 }

/-- Statement `if (!bucket.sampleSubject && subject) bucket.sampleSubject =
subject` (line 2022). -/
def updateSubject (subject : String) (b : SenderBucket) : SenderBucket :=
  if ¬ optTruthy b.sampleSubject ∧ subject ≠ "" then
    { b with sampleSubject := some subject } else b

/-- Statement `if (!bucket.lastSeen || dateIso > bucket.lastSeen)
bucket.lastSeen = dateIso` (line 2023). -/
def updateLastSeen (dateIso : String) (b : SenderBucket) : SenderBucket :=
  if ¬ optTruthy b.lastSeen ∨ strLt (b.lastSeen.getD "") dateIso then
    { b with lastSeen := some dateIso } else b

/-- Statements `if (unsub) { if (unsub.url && !bucket.unsubUrl) ...;
if (unsub.mailto && !bucket.unsubMailto) ... }` (lines 2024–2027). -/
def updateUnsub (unsub : Option UnsubInfo) (b : SenderBucket) : SenderBucket :=
  match unsub with
  | none => b
  | some u =>
    let b := if optTruthy u.url ∧ ¬ optTruthy b.unsubUrl then
        { b with unsubUrl := u.url } else b
    if optTruthy u.mailto ∧ ¬ optTruthy b.unsubMailto then
      { b with unsubMailto := u.mailto } else b

/-- The per-record bucket mutation (lines 2020–2027), as the sequence of the
four statements above. -/
def absorb (subject dateIso : String) (unsub : Option UnsubInfo)
    (b : SenderBucket) : SenderBucket :=
  updateUnsub unsub (updateLastSeen dateIso (updateSubject subject (bumpCount b)))

/-- One iteration of the `for (const m of msgs)` loop. -/
def processRecord (rm : RunMap) (m : Msg) : RunMap :=
  if ¬ m.inInbox then rm
  else
    let p := parseFrom m.rawFrom
    if p.email = "" then rm
    else
      let unsub := parseListUnsubscribeHeader m.unsubHeader
      let key := jsToLower p.email
      let rm := if (rmLookup rm key).isNone then rm ++ [(key, freshBucket p.email p.name)]
                else rm
      rmUpdate rm key (absorb m.subject m.dateIso unsub)

/-- Model of `processMessages(msgs, runMap)`. -/
def processMessages (msgs : List Msg) (rm : RunMap) : RunMap :=
  msgs.foldl processRecord rm

/-! ## Persistent store, index and merge (lines 2181–2295) -/

/-- One Store Record: the 10 columns
`Act?, Email, Name, Count, Subject, LastSeen, URL, Mailto, Notes, Processed`. -/
structure Row where
  act : Bool
  email : String
  name : String
  count : Nat
  subject : String
  lastSeen : String
  unsubUrl : String
  unsubMailto : String
  notes : String
  processed : String
deriving DecidableEq, Repr

/-- Data rows of the report sheet; physical sheet row `n` is index `n - 2`
(row 1 is the header). -/
abbrev Sheet := List Row

/-- Data rows of the hidden index sheet: `(email_lc, rowNumber)` pairs in
append order. -/
abbrev IndexSheet := List (String × Nat)

/-- The blank row a range read yields beyond the written area. -/
def blankRow : Row := ⟨false, "", "", 0, "", "", "", "", "", ""⟩

/-- Replace-or-append used to model `m[key] = row` on a JS object. -/
def upsert (m : List (String × Nat)) (k : String) (r : Nat) : List (String × Nat) :=
  if (m.find? (fun e => e.1 = k)).isSome then
    m.map (fun e => if e.1 = k then (k, r) else e)
  else m ++ [(k, r)]

/-- Model of `readIndex(indexSheet)` (lines 2181–2191): build the in-memory
key → rowNumber map, skipping blank keys and rows ≤ 1. -/
def readIndex (ix : IndexSheet) : List (String × Nat) :=
  ix.foldl (fun m e =>
    let emailLc := jsToLower (jsTrim e.1)
    if emailLc ≠ "" ∧ e.2 > 1 then upsert m emailLc e.2 else m) []

def indexLookup (m : List (String × Nat)) (k : String) : Option Nat :=
  (m.find? (fun e => e.1 = k)).map (·.2)

/-- Model of `buildRowFromBucket(b)` (lines 2282–2295). -/
def buildRowFromBucket (b : SenderBucket) : Row :=
  { act := false
    email := b.email
    name := optStr b.name
    count := b.count
    subject := optStr b.sampleSubject
    lastSeen := optStr b.lastSeen
    unsubUrl := optStr b.unsubUrl
    unsubMailto := optStr b.unsubMailto
    notes := ""
    processed := "" }

/-- The read-modify-write applied to an existing Store Record (lines
2245–2269): additive count, existing-wins string fields, lexicographic
last-seen, untouched act/notes/processed. -/
def mergeRowWithBucket (vals : Row) (bucket : SenderBucket) : Row :=
  let newCount := vals.count + bucket.count
  let subject := jsOr vals.subject (optStr bucket.sampleSubject)
  let existingLast := vals.lastSeen
  let lastSeen :=
    if existingLast = "" ∨ (optTruthy bucket.lastSeen ∧ strLt existingLast (bucket.lastSeen.getD ""))
    then jsOrOpt bucket.lastSeen existingLast
    else existingLast
  let unsubUrl := jsOr vals.unsubUrl (optStr bucket.unsubUrl)
  let unsubMailto := jsOr vals.unsubMailto (optStr bucket.unsubMailto)
  let name := jsOr vals.name (optStr bucket.name)
  { act := vals.act
    email := jsOr vals.email bucket.email
    name
    count := newCount
    subject
    lastSeen
    unsubUrl
    unsubMailto
    notes := jsOr vals.notes ""
    processed := jsOr vals.processed "" }

/-- Stable insertion for the descending-by-count sort: an earlier row stays
before later rows of equal count. -/
def insertByCountDesc (x : Row) : Sheet → Sheet
  | [] => [x]
  | y :: ys => if y.count ≤ x.count then x :: y :: ys else y :: insertByCountDesc x ys

/-- Model of `filter.sort(4, false)` (line 2278): physically re-sort the data rows by
count descending (stable; the counterexamples below do not depend on tie
order). -/
def sortByCountDesc (sheet : Sheet) : Sheet :=
  sheet.foldr insertByCountDesc []

/-- Model of `mergeRunMapUsingIndex(sheet, indexSheet, runMap)` (lines 2196–2280).
Returns the updated `(sheet, indexSheet)`.  The `indexMap[key] = rowNum`
local-cache update after the batch append is dropped: nothing reads the
cache after that point in the call. -/
def mergeRunMapUsingIndex (sheet : Sheet) (ix : IndexSheet) (runMap : RunMap) :
    Sheet × IndexSheet :=
  if runMap = [] then (sheet, ix)
  else
    let indexMap := readIndex ix
    -- stable partition into existing (key present) and new (key absent)
    let existing := runMap.filter (fun e => (indexLookup indexMap e.1).isSome)
    let newOnes := runMap.filter (fun e => ¬ (indexLookup indexMap e.1).isSome)
    -- batch append of new rows at the end of the sheet
    let firstNewRow := sheet.length + 2
    let sheet1 := sheet ++ newOnes.map (fun e => buildRowFromBucket e.2)
    let newIndexRows := (List.range newOnes.length).zipWith
      (fun i e => (e.1, firstNewRow + i)) newOnes
    let ix1 := ix ++ newIndexRows
    -- sequential read-modify-write of existing rows at their indexed location;
    -- a range read past the data area yields blanks, a write there is dropped
    -- (row numbers stored in the index always lie inside the data area)
    let sheet2 := existing.foldl (fun (sh : Sheet) e =>
      match indexLookup indexMap e.1 with
      | some row =>
        if row < 2 then sh
        else sh.set (row - 2) (mergeRowWithBucket (sh.getD (row - 2) blankRow) e.2)
      | none => sh) sheet1
    (sortByCountDesc sheet2, ix1)

/-! ## Scan driver (`buildSenderReportBatch`, lines 1824–1982)

Wall-clock time is modelled by a tick counter: handling one thread in the
inner loop costs one tick; `Date.now() - runStart > RUNTIME_HARD_LIMIT_MS`
becomes `hardLimitTicks < clock`, and `CHECKPOINT_INTERVAL_MS` is likewise
measured in ticks since the last checkpoint. -/

/-- The persisted Resumption State (`UserProperties`): `cursor`,
`totalProcessed`, `initialized`; a deleted property is `none` / `false`. -/
structure Props where
  cursor : Option Nat
  totalProcessed : Option Nat
  initialized : Bool
deriving DecidableEq, Repr

/-- The tunables of `CONFIG` that the driver reads. -/
structure ScanConfig where
  pageSize : Nat
  ckptThreads : Nat
  ckptIntervalTicks : Nat
  hardLimitTicks : Nat
deriving DecidableEq, Repr

/-- One Gmail thread, as the list of its messages
(`GmailApp.getMessagesForThreads`). -/
abbrev Thread := List Msg

/-- The inbox, in search order; `GmailApp.search(q, offset, limit)` returns
the slice `[offset, offset + limit)`. -/
abbrev Source := List Thread

def pageAt (src : Source) (offset limit : Nat) : List Thread :=
  (src.drop offset).take limit

/-- The effect of one inner-loop iteration on the run map:
`if (!msgs || !msgs.length) continue; processMessages(msgs, runMap)`. -/
def threadEffect (t : Thread) (rm : RunMap) : RunMap :=
  if t = [] then rm else processMessages t rm

/-- In-memory state of one `buildSenderReportBatch` invocation. -/
structure LoopState where
  cursor : Nat
  totalProcessed : Nat
  runMap : RunMap
  threadsSince : Nat
  lastCkptTick : Nat
  clock : Nat
  sheet : Sheet
  ix : IndexSheet
  props : Props
deriving Repr

/-- Model of `checkpoint(sheet, indexSheet, props, runMap, cursor, totalProcessed)`
(lines 2034–2044), in its no-crash semantics: merge, then persist cursor and
total.  The instruction-level durability ordering is modelled separately
below (`checkpointOps`). -/
def checkpointState (st : LoopState) : LoopState :=
  let (sh, ix) := mergeRunMapUsingIndex st.sheet st.ix st.runMap
  { st with sheet := sh, ix := ix,
            props := { st.props with cursor := some st.cursor,
                                     totalProcessed := some st.totalProcessed } }

/-- The `for (let tIdx = 0; ...)` loop (lines 1909–1919): per-thread time
check, skip empty message lists, one tick per handled thread. -/
def innerLoop (cfg : ScanConfig) : List Thread → RunMap → Nat → RunMap × Nat
  | [], rm, clock => (rm, clock)
  | t :: ts, rm, clock =>
    if cfg.hardLimitTicks < clock then (rm, clock)
    else innerLoop cfg ts (threadEffect t rm) (clock + 1)

/-- The `while (true)` loop (lines 1890–1951), with explicit fuel; `none`
means the fuel ran out before the loop exited. -/
def mainLoop (cfg : ScanConfig) (src : Source) : Nat → LoopState → Option LoopState
  | 0, _ => none
  | fuel + 1, st =>
    if cfg.hardLimitTicks < st.clock then some st
    else
      let threads := pageAt src st.cursor cfg.pageSize
      if threads = [] then some st
      else
        let (rm, clock) := innerLoop cfg threads st.runMap st.clock
        let st := { st with runMap := rm, clock,
                            cursor := st.cursor + threads.length,
                            threadsSince := st.threadsSince + threads.length,
                            totalProcessed := st.totalProcessed + threads.length }
        let shouldCkpt := cfg.ckptThreads ≤ st.threadsSince ∨
                          cfg.ckptIntervalTicks ≤ st.clock - st.lastCkptTick
        let st :=
          if shouldCkpt ∧ st.runMap ≠ [] then
            let st := checkpointState st
            { st with runMap := [], threadsSince := 0, lastCkptTick := st.clock }
          else st
        mainLoop cfg src fuel st

/-- Lines 1972–1980: when done, delete all three resumption properties;
otherwise persist the final cursor and total. -/
def finalizeProps (done : Bool) (cursor total : Nat) (props : Props) : Props :=
  if done then { cursor := none, totalProcessed := none, initialized := false }
  else { props with cursor := some cursor, totalProcessed := some total }

/-- Result of one completed driver invocation. -/
structure RunResult where
  props : Props
  sheet : Sheet
  ix : IndexSheet
  done : Bool
  totalProcessed : Nat
  finalCursor : Nat
deriving DecidableEq, Repr

/-- A driver invocation either returns early (nothing at the cursor: the
alert-and-return at lines 1878–1887, which touches no state) or runs the
main loop to completion. -/
inductive RunOutcome where
  | earlyEmpty (props : Props) (sheet : Sheet) (ix : IndexSheet)
  | finished (r : RunResult)
deriving DecidableEq, Repr

/-- Model of `buildSenderReportBatch()` (lines 1824–1982) over an abstract source.
Sheet existence/migration and the header-setup calls are outside the data
model (they do not touch data rows); both first-time-initialization branches
set the three properties and never wipe existing data. -/
def buildSenderReportBatch (cfg : ScanConfig) (src : Source) (fuel : Nat)
    (props0 : Props) (sheet0 : Sheet) (ix0 : IndexSheet) : Option RunOutcome :=
  let props := if ¬ props0.initialized then
      { cursor := some 0, totalProcessed := some 0, initialized := true }
    else props0
  let cursor0 := props.cursor.getD 0
  let total0 := props.totalProcessed.getD 0
  if pageAt src cursor0 1 = [] then some (.earlyEmpty props sheet0 ix0)
  else
    match mainLoop cfg src fuel
        { cursor := cursor0, totalProcessed := total0, runMap := [],
          threadsSince := 0, lastCkptTick := 0, clock := 0,
          sheet := sheet0, ix := ix0, props := props } with
    | none => none
    | some st =>
      let st := if st.runMap ≠ [] then checkpointState st else st
      let done := pageAt src st.cursor 1 = []
      some (.finished
        { props := finalizeProps done st.cursor st.totalProcessed st.props
          sheet := st.sheet
          ix := st.ix
          done
          totalProcessed := st.totalProcessed
          finalCursor := st.cursor })

/-! ## Durability order inside one checkpoint (lines 2034–2044)

`SpreadsheetApp` mutations are buffered until `SpreadsheetApp.flush()` (the
code's own comment: "Apps Script batches writes, this ensures they're
committed"), while a `PropertiesService.setProperty` call is durable as soon
as it returns.  A checkpoint is therefore the instruction sequence below,
and the host may kill the process after any prefix of it, losing whatever
is still buffered. -/

inductive CkptOp where
  /-- A buffered spreadsheet mutation (the `mergeRunMapUsingIndex` call). -/
  | sheetOp (f : Sheet × IndexSheet → Sheet × IndexSheet)
  /-- Write of `props.setProperty(KEYS.CURSOR, ...)`: durable immediately. -/
  | setCursor (v : Nat)
  /-- Write of `props.setProperty(KEYS.TOTAL_PROCESSED, ...)`: durable immediately. -/
  | setTotal (v : Nat)
  /-- Effect of `SpreadsheetApp.flush()`: commit the buffered spreadsheet state. -/
  | flush

/-- Durable and buffered state while a checkpoint executes. -/
structure DurState where
  committed : Sheet × IndexSheet
  pending : Sheet × IndexSheet
  props : Props
deriving Repr

def stepOp (st : DurState) : CkptOp → DurState
  | .sheetOp f => { st with pending := f st.pending }
  | .setCursor v => { st with props := { st.props with cursor := some v } }
  | .setTotal v => { st with props := { st.props with totalProcessed := some v } }
  | .flush => { st with committed := st.pending }

/-- The instruction sequence of `checkpoint` (lines 2034–2044), in source
order: merge (buffered), cursor write, total write, flush. -/
def checkpointOps (rm : RunMap) (cursor total : Nat) : List CkptOp :=
  [ .sheetOp (fun p => mergeRunMapUsingIndex p.1 p.2 rm),
    .setCursor cursor, .setTotal total, .flush ]

/-- Durable state if the host kills the process after the first `k`
instructions of `ops` (the buffered `pending` view is lost). -/
def crashAfter (st : DurState) (ops : List CkptOp) (k : Nat) : DurState :=
  (ops.take k).foldl stepOp st

/-! ## Checkpoint-partition runs (for additivity across checkpoint
boundaries): each chunk is the message sequence absorbed between two
checkpoints, aggregated into a fresh run map and merged in order. -/

def runPartition (chunks : List (List Msg)) : Sheet × IndexSheet :=
  chunks.foldl (fun (st : Sheet × IndexSheet) chunk =>
    mergeRunMapUsingIndex st.1 st.2 (processMessages chunk [])) ([], [])

/-- The aggregate count the store holds for key `k`: the sum of the Count
column over the rows whose address is `k`. -/
def finalCount (sheet : Sheet) (k : String) : Nat :=
  ((sheet.filter (fun r => r.email = k)).map Row.count).sum

/-- Number of records (messages) of the source normalizing to key `k`. -/
def msgKey (m : Msg) : Option String :=
  if m.inInbox then
    let p := parseFrom m.rawFrom
    if p.email = "" then none else some (jsToLower p.email)
  else none

def occurrences (msgs : List Msg) (k : String) : Nat :=
  (msgs.filter (fun m => msgKey m = some k)).length

end InboxScan


namespace InboxScan

/-! ## Concrete scenario inputs used by the claim theorems -/

/-- Demo message from `a@x.co` (thread 0 of the time-limit scenario). -/
def msgA : Msg := ⟨true, "<a@x.co>", "sa", "2024-01-01", ""⟩

/-- Demo message from `b@x.co`. -/
def msgB : Msg := ⟨true, "<b@x.co>", "sb", "2024-01-02", ""⟩

/-- Demo message from `c@x.co`. -/
def msgC : Msg := ⟨true, "<c@x.co>", "sc", "2024-01-03", ""⟩

/-- Time-limit scenario: page size 2, hard budget of 0 ticks (the budget
expires while the first fetched page is being processed). -/
def cfgTimeLimit : ScanConfig := ⟨2, 100, 1000000, 0⟩

/-- Time-limit scenario source: three single-message threads. -/
def srcTimeLimit : Source := [[msgA], [msgB], [msgC]]

/-- The single store row the time-limit scenario produces. -/
def rowA1 : Row := ⟨false, "a@x.co", "", 1, "sa", "2024-01-01", "", "", "", ""⟩

/-- Exhaustion scenario: page size 50 and a 50-thread checkpoint threshold
(both tunables), no effective time limits. -/
def cfgExhaust : ScanConfig := ⟨50, 50, 1000000, 1000000⟩

/-- Exhaustion scenario message: every thread is one message from the same
sender. -/
def msgH : Msg := ⟨true, "<a@b.co>", "hi", "2024-01-01", ""⟩

/-- Exhaustion scenario source: records at offsets `[0, 150)`, empty
thereafter. -/
def srcExhaust : Source := List.replicate 150 [msgH]

/-- The single store row the exhaustion scenario produces. -/
def rowH150 : Row := ⟨false, "a@b.co", "", 150, "hi", "2024-01-01", "", "", "", ""⟩

/-- A one-count bucket for `a@x.co` (sort/stale-index counterexamples). -/
def bucketA1 : SenderBucket := ⟨"a@x.co", none, 1, none, none, none, none⟩

/-- A two-count bucket for `b@x.co`. -/
def bucketB2 : SenderBucket := ⟨"b@x.co", none, 2, none, none, none, none⟩

/-- Additivity counterexample messages: `a, b, b, a` in arrival order. -/
def msgA1 : Msg := ⟨true, "<a@x.co>", "", "2024-01-01", ""⟩
def msgB1 : Msg := ⟨true, "<b@x.co>", "", "2024-01-02", ""⟩
def msgB2 : Msg := ⟨true, "<b@x.co>", "", "2024-01-03", ""⟩
def msgA2 : Msg := ⟨true, "<a@x.co>", "", "2024-01-04", ""⟩

/-- The records `a, b, b, a` split at a checkpoint boundary after the third
record. -/
def chunksSplit : List (List Msg) := [[msgA1, msgB1, msgB2], [msgA2]]

/-- The same records with no intermediate checkpoint. -/
def chunksWhole : List (List Msg) := [[msgA1, msgB1, msgB2, msgA2]]

/-- Single-key aggregation demo (C7): subjects `"", "A", "B"`, timestamps
January, March, February, one sender. -/
def msgS1 : Msg := ⟨true, "<a@x.co>", "", "2024-01-01T00:00:00Z", ""⟩
def msgS2 : Msg := ⟨true, "<a@x.co>", "A", "2024-03-01T00:00:00Z", ""⟩
def msgS3 : Msg := ⟨true, "<a@x.co>", "B", "2024-02-01T00:00:00Z", ""⟩

/-- A message whose originator field has an uppercase address (C10). -/
def msgAlice : Msg := ⟨true, "Alice <Alice@Example.COM>", "s", "2024-01-01", ""⟩

/-- A message whose originator field contains no address-like substring
under either extraction strategy (C9). -/
def msgNoAddr : Msg := ⟨true, "no address here", "s", "2024-01-01", ""⟩

/-- First non-`null` unsubscribe URL a message contributes (the value
`absorb` would store), as used in the C7 characterization. -/
def msgUrl (m : Msg) : Option String :=
  match parseListUnsubscribeHeader m.unsubHeader with
  | none => none
  | some u => if optTruthy u.url then u.url else none

/-- First non-`null` unsubscribe mailto a message contributes. -/
def msgMailto (m : Msg) : Option String :=
  match parseListUnsubscribeHeader m.unsubHeader with
  | none => none
  | some u => if optTruthy u.mailto then u.mailto else none

/-- One absorb step of `processMessages` for a message already known to hit
bucket `b`. -/
def absorbMsg (m : Msg) (b : SenderBucket) : SenderBucket :=
  absorb m.subject m.dateIso (parseListUnsubscribeHeader m.unsubHeader) b

end InboxScan

namespace InboxScan

/-! ## Order lemmas bridging `strLt` to the `String` linear order -/

theorem strLt_iff {s t : String} : strLt s t = true ↔ s < t := by
  rw [String.lt_iff_toList_lt]
  exact decide_eq_true_iff

theorem empty_le (s : String) : "" ≤ s := by
  rw [String.le_iff_toList_le]
  exact List.nil_le

theorem jsOr_empty (s : String) : jsOr s "" = s := by
  unfold jsOr; split <;> simp_all

theorem optTruthy_some (o : Option String) (h : optTruthy o = true) :
    o = some (o.getD "") := by
  cases o with
  | none => simp [optTruthy] at h
  | some x => rfl

/-- Value of the merged last-seen expression: the lexicographic maximum. -/
theorem mergeLastSeen_eq (e : String) (o : Option String) :
    (if e = "" ∨ (optTruthy o ∧ strLt e (o.getD "")) then jsOrOpt o e else e)
      = max e (o.getD "") := by
  cases o with
  | none =>
    simp only [optTruthy, Option.getD, jsOrOpt]
    by_cases he : e = "" <;> simp [he, max_eq_left (empty_le e)]
  | some t =>
    by_cases ht : t = ""
    · subst ht
      simp only [optTruthy, Option.getD, jsOrOpt]
      by_cases he : e = "" <;> simp [he, max_eq_left (empty_le e)]
    · by_cases he : e = ""
      · subst he
        simp only [optTruthy, Option.getD, jsOrOpt]
        simp [ht, max_eq_right (empty_le t)]
      · by_cases hlt : strLt e t = true
        · have h2 : e < t := strLt_iff.mp hlt
          simp only [optTruthy, Option.getD, jsOrOpt]
          simp [he, ht, hlt, max_eq_right (le_of_lt h2)]
        · have h2 : ¬ e < t := fun h => hlt (strLt_iff.mpr h)
          simp only [optTruthy, Option.getD, jsOrOpt]
          simp [he, ht, hlt, max_eq_left (not_lt.mp h2)]

end InboxScan

namespace InboxScan

/-! ## Claim C4 and C6: the merge-field policy -/

/-- C4 (confirmed): for every existing Store Record `r` and incoming bucket
`b`, the merged row has `count = count_r + count_b`; `sampleSubject` is `r`'s
if non-empty, else `b`'s; `lastSeen` is the lexicographic maximum of the two
timestamps (the empty string is the bottom of that order, so empty counts as
minimal); `unsubscribeUrl` and `unsubscribeMailto` are `r`'s if non-empty,
else `b`'s. -/
theorem merge_field_policy (r : Row) (b : SenderBucket) :
    (mergeRowWithBucket r b).count = r.count + b.count ∧
    (mergeRowWithBucket r b).subject
      = (if r.subject = "" then b.sampleSubject.getD "" else r.subject) ∧
    (mergeRowWithBucket r b).lastSeen = max r.lastSeen (b.lastSeen.getD "") ∧
    (mergeRowWithBucket r b).unsubUrl
      = (if r.unsubUrl = "" then b.unsubUrl.getD "" else r.unsubUrl) ∧
    (mergeRowWithBucket r b).unsubMailto
      = (if r.unsubMailto = "" then b.unsubMailto.getD "" else r.unsubMailto) := by
  refine ⟨rfl, rfl, ?_, rfl, rfl⟩
  exact mergeLastSeen_eq r.lastSeen b.lastSeen

/-- C6 (confirmed): merging a bucket into an existing Store Record leaves the
record's `actFlag`, `notes` and `processedTimestamp` fields unchanged, for
every pre-merge record value and every incoming bucket. -/
theorem merge_untouched_fields (r : Row) (b : SenderBucket) :
    (mergeRowWithBucket r b).act = r.act ∧
    (mergeRowWithBucket r b).notes = r.notes ∧
    (mergeRowWithBucket r b).processed = r.processed :=
  ⟨rfl, jsOr_empty r.notes, jsOr_empty r.processed⟩

/-! ## Claims C1, C2, C3, C5: evaluations at the failing inputs -/

/-- C1 (code bug): evaluation of the driver at the failing input.  With a
hard time budget that expires while the first fetched page (threads 0 and 1)
is being processed, the run persists `cursor = 2` and reports `done = false`,
yet the store only reflects thread 0's record: thread 1's record (key
`b@x.co`, at offset 1, below the cursor) was never aggregated and will never
be revisited.  This contradicts the claimed invariant that the persisted
cursor only covers durably merged records: the inner loop's time-limit break
(line 1911) skips the rest of the page, but line 1921 still advances the
cursor by the whole page length. -/
theorem time_limit_loses_midpage_records :
    buildSenderReportBatch cfgTimeLimit srcTimeLimit 5 ⟨none, none, false⟩ [] []
      = some (.finished ⟨⟨some 2, some 2, true⟩, [rowA1], [("a@x.co", 2)], false, 2, 2⟩) ∧
    occurrences ((pageAt srcTimeLimit 0 2).flatten) "a@x.co" = 1 ∧
    occurrences ((pageAt srcTimeLimit 0 2).flatten) "b@x.co" = 1 ∧
    finalCount [rowA1] "b@x.co" = 0 ∧
    finalCount [rowA1] "a@x.co" = 1 := by decide

/-- C2 (code bug): evaluation of the checkpoint instruction sequence at the
failing crash point.  `checkpoint` issues the (buffered) spreadsheet merge,
then the immediately-durable cursor and total property writes, and only then
`SpreadsheetApp.flush()`.  Killing the process after the third instruction —
before the flush — leaves the cursor durably advanced to 7 while the durable
store is still empty, although the merge of this run map writes a row:
exactly the "cursor advanced but Store/Index not committed" state the claim
rules out. -/
theorem cursor_durable_before_store_commit :
    (crashAfter ⟨([], []), ([], []), ⟨some 0, some 0, true⟩⟩
        (checkpointOps [("a@x.co", bucketA1)] 7 7) 3).props.cursor = some 7 ∧
    (crashAfter ⟨([], []), ([], []), ⟨some 0, some 0, true⟩⟩
        (checkpointOps [("a@x.co", bucketA1)] 7 7) 3).committed = ([], []) ∧
    (mergeRunMapUsingIndex [] [] [("a@x.co", bucketA1)]).1 ≠ [] := by
  refine ⟨rfl, rfl, by decide⟩

/-- C3 (code bug): evaluation at the failing input.  One merge of two new
senders (`a` with count 1, then `b` with count 2) appends `a` at row 2 and
`b` at row 3 and records those locations in the index; the closing
`filter.sort(4, false)` then physically reorders the data rows by count
descending, so row 2 now holds `b`'s record while the index still maps
`a@x.co` to row 2.  The claimed invariant — the row at the indexed location
holds that key's record, and locations stay stable across the re-sort — is
already false after this single merge. -/
theorem index_stale_after_sort :
    indexLookup (readIndex (mergeRunMapUsingIndex [] []
        [("a@x.co", bucketA1), ("b@x.co", bucketB2)]).2) "a@x.co" = some 2 ∧
    ((mergeRunMapUsingIndex [] []
        [("a@x.co", bucketA1), ("b@x.co", bucketB2)]).1.getD 0 blankRow).email
      = "b@x.co" := by decide

/-- C5 (code bug): evaluation at the failing input.  The records `a, b, b, a`
merged in one chunk yield the correct final count 2 for key `a@x.co`; the
same records split at a checkpoint boundary after the third record yield
final count 1, because the first merge's re-sort moved `b`'s row to the
location the index still attributes to `a`, so the second merge's increment
for `a` lands on `b`'s row.  Checkpoint-boundary placement therefore does
change the final aggregate, contradicting the claim. -/
theorem checkpoint_placement_changes_count :
    chunksSplit.flatten = chunksWhole.flatten ∧
    occurrences chunksWhole.flatten "a@x.co" = 2 ∧
    finalCount (runPartition chunksWhole).1 "a@x.co" = 2 ∧
    finalCount (runPartition chunksSplit).1 "a@x.co" = 1 := by decide

/-! ## Claim C10: counterexample -/

/-- C10 counterexample: for the raw originator `Alice <Alice@Example.COM>`
the bucket built by `processMessages` — and hence the Store Record built from
it by `buildRowFromBucket` — carries the address `alice@example.com`, which
differs from the original form `Alice@Example.COM`: `parseFrom` lowercases
the address before the bucket is created, so the stored address is not the
original (non-case-folded) form the claim asserts. -/
theorem new_row_stores_lowercased_address :
    (processMessages [msgAlice] []).map
        (fun e => (e.1, (buildRowFromBucket e.2).email))
      = [("alice@example.com", "alice@example.com")] ∧
    ("alice@example.com" : String) ≠ "Alice@Example.COM" := by decide

/-! ## Claim C8: exhaustion detection -/

set_option maxRecDepth 8000 in
/-- C8 (confirmed): a full run over a source with records at offsets
`[0, 150)` and empty pages thereafter finishes with `done = true` and
`totalProcessed = 150`; the driver decides `done` by probing one more page at
the final cursor (150, where the probe is empty); being done it deletes all
three resumption properties (`cursor`, `totalProcessed`, `initialized`),
while a not-done run persists the final cursor and total — the two
`finalizeProps` clauses. -/
theorem exhaustion_detection :
    buildSenderReportBatch cfgExhaust srcExhaust 10 ⟨none, none, false⟩ [] []
      = some (.finished ⟨⟨none, none, false⟩, [rowH150], [("a@b.co", 2)], true, 150, 150⟩) ∧
    (∀ c t p, finalizeProps true c t p = ⟨none, none, false⟩) ∧
    (∀ c t p, finalizeProps false c t p = ⟨some c, some t, p.initialized⟩) := by
  refine ⟨by decide, fun c t p => rfl, fun c t p => rfl⟩

end InboxScan

namespace InboxScan

/- projections of the four absorb statements -/

theorem bumpCount_proj (b : SenderBucket) :
    (bumpCount b).email = b.email ∧ (bumpCount b).sampleSubject = b.sampleSubject ∧
    (bumpCount b).lastSeen = b.lastSeen ∧ (bumpCount b).unsubUrl = b.unsubUrl ∧
    (bumpCount b).unsubMailto = b.unsubMailto ∧ (bumpCount b).count = b.count + 1 :=
  ⟨rfl, rfl, rfl, rfl, rfl, rfl⟩

theorem updateSubject_proj (s : String) (b : SenderBucket) :
    (updateSubject s b).email = b.email ∧
    (updateSubject s b).lastSeen = b.lastSeen ∧
    (updateSubject s b).unsubUrl = b.unsubUrl ∧
    (updateSubject s b).unsubMailto = b.unsubMailto ∧
    (updateSubject s b).count = b.count := by
  unfold updateSubject; split <;> exact ⟨rfl, rfl, rfl, rfl, rfl⟩

theorem updateLastSeen_proj (d : String) (b : SenderBucket) :
    (updateLastSeen d b).email = b.email ∧
    (updateLastSeen d b).sampleSubject = b.sampleSubject ∧
    (updateLastSeen d b).unsubUrl = b.unsubUrl ∧
    (updateLastSeen d b).unsubMailto = b.unsubMailto ∧
    (updateLastSeen d b).count = b.count := by
  unfold updateLastSeen; split <;> exact ⟨rfl, rfl, rfl, rfl, rfl⟩

theorem updateUnsub_proj (u : Option UnsubInfo) (b : SenderBucket) :
    (updateUnsub u b).email = b.email ∧
    (updateUnsub u b).sampleSubject = b.sampleSubject ∧
    (updateUnsub u b).lastSeen = b.lastSeen ∧
    (updateUnsub u b).count = b.count := by
  unfold updateUnsub; cases u <;> dsimp only <;> (try split_ifs) <;> exact ⟨rfl, rfl, rfl, rfl⟩

theorem updateSubject_sampleSubject (s : String) (b : SenderBucket) :
    (updateSubject s b).sampleSubject
      = if ¬ optTruthy b.sampleSubject ∧ s ≠ "" then some s else b.sampleSubject := by
  unfold updateSubject; split_ifs <;> simp_all

theorem updateLastSeen_lastSeen (d : String) (b : SenderBucket) :
    (updateLastSeen d b).lastSeen = some (max (b.lastSeen.getD "") d) := by
  unfold updateLastSeen
  by_cases ht : optTruthy b.lastSeen
  · by_cases hlt : strLt (b.lastSeen.getD "") d = true
    · simp [ht, hlt, max_eq_right (le_of_lt (strLt_iff.mp hlt))]
    · have hnl : ¬ (b.lastSeen.getD "") < d := fun hc => hlt (strLt_iff.mpr hc)
      rw [if_neg (by simp [ht, hlt]), max_eq_left (not_lt.mp hnl)]
      exact optTruthy_some _ ht
  · have he : b.lastSeen.getD "" = "" := by
      rcases o : b.lastSeen with _ | x
      · rfl
      · rw [o] at ht; simpa [optTruthy] using ht
    simp [ht, he, max_eq_right (empty_le d)]

theorem updateUnsub_unsubUrl (u : Option UnsubInfo) (b : SenderBucket) :
    (updateUnsub u b).unsubUrl
      = if ¬ optTruthy b.unsubUrl then
          (match u with
           | none => b.unsubUrl
           | some uu => if optTruthy uu.url then uu.url else b.unsubUrl)
        else b.unsubUrl := by
  unfold updateUnsub; cases u <;> dsimp only <;> split_ifs <;> simp_all

theorem updateUnsub_unsubMailto (u : Option UnsubInfo) (b : SenderBucket) :
    (updateUnsub u b).unsubMailto
      = if ¬ optTruthy b.unsubMailto then
          (match u with
           | none => b.unsubMailto
           | some uu => if optTruthy uu.mailto then uu.mailto else b.unsubMailto)
        else b.unsubMailto := by
  unfold updateUnsub; cases u <;> dsimp only <;> split_ifs <;> simp_all

/- absorb projections -/

theorem absorb_email (s d : String) (u : Option UnsubInfo) (b : SenderBucket) :
    (absorb s d u b).email = b.email := by
  unfold absorb
  rw [updateUnsub_proj .. |>.1, updateLastSeen_proj .. |>.1, updateSubject_proj .. |>.1]
  rfl

theorem absorb_count (s d : String) (u : Option UnsubInfo) (b : SenderBucket) :
    (absorb s d u b).count = b.count + 1 := by
  unfold absorb
  rw [updateUnsub_proj .. |>.2.2.2, updateLastSeen_proj .. |>.2.2.2.2,
      updateSubject_proj .. |>.2.2.2.2]
  rfl

theorem absorb_sampleSubject (s d : String) (u : Option UnsubInfo) (b : SenderBucket) :
    (absorb s d u b).sampleSubject
      = if ¬ optTruthy b.sampleSubject ∧ s ≠ "" then some s else b.sampleSubject := by
  unfold absorb
  rw [updateUnsub_proj .. |>.2.1, updateLastSeen_proj .. |>.2.1, updateSubject_sampleSubject]
  rfl

theorem absorb_lastSeen (s d : String) (u : Option UnsubInfo) (b : SenderBucket) :
    (absorb s d u b).lastSeen = some (max (b.lastSeen.getD "") d) := by
  unfold absorb
  rw [updateUnsub_proj .. |>.2.2.1, updateLastSeen_lastSeen,
      updateSubject_proj .. |>.2.1]
  rfl

theorem absorb_unsubUrl (s d : String) (u : Option UnsubInfo) (b : SenderBucket) :
    (absorb s d u b).unsubUrl
      = if ¬ optTruthy b.unsubUrl then
          (match u with
           | none => b.unsubUrl
           | some uu => if optTruthy uu.url then uu.url else b.unsubUrl)
        else b.unsubUrl := by
  unfold absorb
  rw [updateUnsub_unsubUrl]
  rw [updateLastSeen_proj .. |>.2.2.1, updateSubject_proj .. |>.2.2.1]
  rfl

theorem absorb_unsubMailto (s d : String) (u : Option UnsubInfo) (b : SenderBucket) :
    (absorb s d u b).unsubMailto
      = if ¬ optTruthy b.unsubMailto then
          (match u with
           | none => b.unsubMailto
           | some uu => if optTruthy uu.mailto then uu.mailto else b.unsubMailto)
        else b.unsubMailto := by
  unfold absorb
  rw [updateUnsub_unsubMailto]
  rw [updateLastSeen_proj .. |>.2.2.2.1, updateSubject_proj .. |>.2.2.2.1]
  rfl

end InboxScan

namespace InboxScan

theorem msgUrl_ne_empty (m : Msg) (x : String) (h : msgUrl m = some x) : x ≠ "" := by
  unfold msgUrl at h
  rcases hu : parseListUnsubscribeHeader m.unsubHeader with _ | u <;> rw [hu] at h <;>
    dsimp only at h
  · exact absurd h (by simp)
  · by_cases ht : optTruthy u.url = true
    · rw [if_pos ht] at h
      rw [h] at ht
      simpa [optTruthy] using ht
    · rw [if_neg ht] at h
      exact absurd h (by simp)

theorem msgMailto_ne_empty (m : Msg) (x : String) (h : msgMailto m = some x) : x ≠ "" := by
  unfold msgMailto at h
  rcases hu : parseListUnsubscribeHeader m.unsubHeader with _ | u <;> rw [hu] at h <;>
    dsimp only at h
  · exact absurd h (by simp)
  · by_cases ht : optTruthy u.mailto = true
    · rw [if_pos ht] at h
      rw [h] at ht
      simpa [optTruthy] using ht
    · rw [if_neg ht] at h
      exact absurd h (by simp)

theorem absorbMsg_unsubUrl (m : Msg) (b : SenderBucket) :
    (absorbMsg m b).unsubUrl
      = if ¬ optTruthy b.unsubUrl then (msgUrl m <|> b.unsubUrl)
        else b.unsubUrl := by
  unfold absorbMsg msgUrl
  rw [absorb_unsubUrl]
  rcases parseListUnsubscribeHeader m.unsubHeader with _ | u
  · simp
  · dsimp only
    split_ifs with h1 h2 <;> try simp_all
    rw [optTruthy_some u.url (by tauto)]
    simp

theorem absorbMsg_unsubMailto (m : Msg) (b : SenderBucket) :
    (absorbMsg m b).unsubMailto
      = if ¬ optTruthy b.unsubMailto then (msgMailto m <|> b.unsubMailto)
        else b.unsubMailto := by
  unfold absorbMsg msgMailto
  rw [absorb_unsubMailto]
  rcases parseListUnsubscribeHeader m.unsubHeader with _ | u
  · simp
  · dsimp only
    split_ifs with h1 h2 <;> try simp_all
    rw [optTruthy_some u.mailto (by tauto)]
    simp

theorem foldl_absorb_lastSeen (msgs : List Msg) : ∀ b : SenderBucket,
    (msgs.foldl (fun b m => absorbMsg m b) b).lastSeen
      = if msgs.isEmpty then b.lastSeen
        else some ((msgs.map Msg.dateIso).foldl max (b.lastSeen.getD "")) := by
  induction msgs with
  | nil => intro b; rfl
  | cons m ms ih =>
    intro b
    rw [List.foldl_cons, ih]
    have h1 : (absorbMsg m b).lastSeen = some (max (b.lastSeen.getD "") m.dateIso) :=
      absorb_lastSeen ..
    cases ms with
    | nil => simpa using h1
    | cons m2 ms2 => simp [h1]

theorem foldl_absorb_sampleSubject (msgs : List Msg) : ∀ b : SenderBucket,
    (msgs.foldl (fun b m => absorbMsg m b) b).sampleSubject
      = if optTruthy b.sampleSubject then b.sampleSubject
        else (((msgs.map Msg.subject).filter (fun s => s ≠ "")).head? <|> b.sampleSubject) := by
  induction msgs with
  | nil => intro b; by_cases h : optTruthy b.sampleSubject = true <;> simp [h]
  | cons m ms ih =>
    intro b
    rw [List.foldl_cons, ih]
    have h1 : (absorbMsg m b).sampleSubject
        = if ¬ optTruthy b.sampleSubject ∧ m.subject ≠ "" then some m.subject
          else b.sampleSubject := absorb_sampleSubject ..
    by_cases hb : optTruthy b.sampleSubject = true
    · have : (absorbMsg m b).sampleSubject = b.sampleSubject := by simp [h1, hb]
      simp [this, hb]
    · by_cases hs : m.subject = ""
      · have : (absorbMsg m b).sampleSubject = b.sampleSubject := by simp [h1, hs]
        simp [this, hb, hs]
      · have h2 : (absorbMsg m b).sampleSubject = some m.subject := by simp [h1, hb, hs]
        have h3 : optTruthy (some m.subject) = true := by simpa [optTruthy] using hs
        simp [h2, h3, hb, hs]

theorem foldl_absorb_unsubUrl (msgs : List Msg) : ∀ b : SenderBucket,
    (msgs.foldl (fun b m => absorbMsg m b) b).unsubUrl
      = if optTruthy b.unsubUrl then b.unsubUrl
        else ((msgs.filterMap msgUrl).head? <|> b.unsubUrl) := by
  induction msgs with
  | nil => intro b; by_cases h : optTruthy b.unsubUrl = true <;> simp [h]
  | cons m ms ih =>
    intro b
    rw [List.foldl_cons, ih]
    by_cases hb : optTruthy b.unsubUrl = true
    · have : (absorbMsg m b).unsubUrl = b.unsubUrl := by
        rw [absorbMsg_unsubUrl]; simp [hb]
      simp [this, hb]
    · rcases hm : msgUrl m with _ | x
      · have : (absorbMsg m b).unsubUrl = b.unsubUrl := by
          rw [absorbMsg_unsubUrl]; simp [hb, hm]
        simp [this, hb, hm, List.filterMap_cons]
      · have h2 : (absorbMsg m b).unsubUrl = some x := by
          rw [absorbMsg_unsubUrl]; simp [hb, hm]
        have h3 : optTruthy (some x) = true := by
          simpa [optTruthy] using msgUrl_ne_empty m x hm
        simp [h2, h3, hb, hm, List.filterMap_cons]

theorem foldl_absorb_unsubMailto (msgs : List Msg) : ∀ b : SenderBucket,
    (msgs.foldl (fun b m => absorbMsg m b) b).unsubMailto
      = if optTruthy b.unsubMailto then b.unsubMailto
        else ((msgs.filterMap msgMailto).head? <|> b.unsubMailto) := by
  induction msgs with
  | nil => intro b; by_cases h : optTruthy b.unsubMailto = true <;> simp [h]
  | cons m ms ih =>
    intro b
    rw [List.foldl_cons, ih]
    by_cases hb : optTruthy b.unsubMailto = true
    · have : (absorbMsg m b).unsubMailto = b.unsubMailto := by
        rw [absorbMsg_unsubMailto]; simp [hb]
      simp [this, hb]
    · rcases hm : msgMailto m with _ | x
      · have : (absorbMsg m b).unsubMailto = b.unsubMailto := by
          rw [absorbMsg_unsubMailto]; simp [hb, hm]
        simp [this, hb, hm, List.filterMap_cons]
      · have h2 : (absorbMsg m b).unsubMailto = some x := by
          rw [absorbMsg_unsubMailto]; simp [hb, hm]
        have h3 : optTruthy (some x) = true := by
          simpa [optTruthy] using msgMailto_ne_empty m x hm
        simp [h2, h3, hb, hm, List.filterMap_cons]

end InboxScan

namespace InboxScan

theorem msgKey_unfold (m : Msg) (k : String) (h : msgKey m = some k) :
    m.inInbox = true ∧ (parseFrom m.rawFrom).email ≠ "" ∧
    jsToLower (parseFrom m.rawFrom).email = k := by
  unfold msgKey at h
  by_cases hi : m.inInbox
  · rw [if_pos hi] at h
    by_cases he : (parseFrom m.rawFrom).email = ""
    · rw [if_pos he] at h; exact absurd h (by simp)
    · rw [if_neg he] at h
      exact ⟨hi, he, by simpa using h⟩
  · rw [if_neg hi] at h; exact absurd h (by simp)

theorem processRecord_singleton (m : Msg) (k : String) (b : SenderBucket)
    (h : msgKey m = some k) :
    processRecord [(k, b)] m = [(k, absorbMsg m b)] := by
  obtain ⟨hi, he, hk⟩ := msgKey_unfold m k h
  unfold processRecord
  simp only [hi]
  rw [if_neg (by simp)]
  simp only [if_neg he, hk, rmLookup, rmUpdate, List.find?, absorbMsg]
  simp

theorem processRecord_nil (m : Msg) (k : String) (h : msgKey m = some k) :
    processRecord [] m
      = [(k, absorbMsg m (freshBucket (parseFrom m.rawFrom).email (parseFrom m.rawFrom).name))] := by
  obtain ⟨hi, he, hk⟩ := msgKey_unfold m k h
  unfold processRecord
  simp only [hi]
  rw [if_neg (by simp)]
  simp only [if_neg he, hk, rmLookup, rmUpdate, List.find?, absorbMsg]
  simp

theorem processMessages_singleKey (k : String) (msgs : List Msg) :
    ∀ b : SenderBucket, (∀ m ∈ msgs, msgKey m = some k) →
    processMessages msgs [(k, b)] = [(k, msgs.foldl (fun b m => absorbMsg m b) b)] := by
  induction msgs with
  | nil => intro b _; rfl
  | cons m ms ih =>
    intro b h
    have h0 := h m (by simp)
    have hr : ∀ m' ∈ ms, msgKey m' = some k := fun m' hm => h m' (by simp [hm])
    show processMessages ms (processRecord [(k, b)] m) = _
    rw [processRecord_singleton m k b h0, ih (absorbMsg m b) hr, List.foldl_cons]

end InboxScan

namespace InboxScan

/-- C7 (confirmed): aggregating any non-empty message list that normalizes
to a single key produces exactly one bucket whose `sampleSubject` is the
first non-empty subject seen, whose `lastSeenTimestamp` is the
lexicographically greatest timestamp seen, and whose `unsubscribeUrl` /
`unsubscribeMailto` are the first non-null contributions (set only while
currently unset); `count` is the number of records.  Instantiated in the
witness on subjects `"", "A", "B"` (ending as `"A"`) and timestamps January,
March, February in that arrival order (ending as the March value). -/
theorem single_key_aggregation (m0 : Msg) (rest : List Msg) (k : String)
    (h : ∀ m ∈ m0 :: rest, msgKey m = some k) :
    ∃ bkt, processMessages (m0 :: rest) [] = [(k, bkt)] ∧
      bkt.count = (m0 :: rest).length ∧
      bkt.sampleSubject = (((m0 :: rest).map Msg.subject).filter (fun s => s ≠ "")).head? ∧
      bkt.lastSeen = some (((m0 :: rest).map Msg.dateIso).foldl max "") ∧
      bkt.unsubUrl = ((m0 :: rest).filterMap msgUrl).head? ∧
      bkt.unsubMailto = ((m0 :: rest).filterMap msgMailto).head? := by
  have h0 := h m0 (by simp)
  have hrest : ∀ m ∈ rest, msgKey m = some k := fun m hm => h m (by simp [hm])
  have e1 : processMessages (m0 :: rest) []
      = [(k, rest.foldl (fun b m => absorbMsg m b)
            (absorbMsg m0 (freshBucket (parseFrom m0.rawFrom).email (parseFrom m0.rawFrom).name)))] := by
    show processMessages rest (processRecord [] m0) = _
    rw [processRecord_nil m0 k h0]
    exact processMessages_singleKey k rest _ hrest
  generalize hb0 : absorbMsg m0 (freshBucket (parseFrom m0.rawFrom).email
      (parseFrom m0.rawFrom).name) = b0 at e1
  have hc : b0.count = 1 := by
    rw [← hb0]; simp only [absorbMsg]; rw [absorb_count]; rfl
  have hsamp : b0.sampleSubject = if m0.subject ≠ "" then some m0.subject else none := by
    rw [← hb0]; simp only [absorbMsg]; rw [absorb_sampleSubject]
    simp [freshBucket, optTruthy]
  have hlast : b0.lastSeen = some m0.dateIso := by
    rw [← hb0]; simp only [absorbMsg]; rw [absorb_lastSeen]
    simp [freshBucket, max_eq_right (empty_le m0.dateIso)]
  have hurl : b0.unsubUrl = msgUrl m0 := by
    rw [← hb0, absorbMsg_unsubUrl]
    simp [freshBucket, optTruthy]
  have hmto : b0.unsubMailto = msgMailto m0 := by
    rw [← hb0, absorbMsg_unsubMailto]
    simp [freshBucket, optTruthy]
  have hstep : ∀ (ms : List Msg) (b : SenderBucket),
      (ms.foldl (fun b m => absorbMsg m b) b).count = b.count + ms.length := by
    intro ms
    induction ms with
    | nil => intro b; simp
    | cons m ms ih =>
      intro b
      rw [List.foldl_cons, ih]
      have hac : (absorbMsg m b).count = b.count + 1 := absorb_count ..
      rw [hac]
      simp only [List.length_cons]
      omega
  refine ⟨_, e1, ?_, ?_, ?_, ?_, ?_⟩
  · rw [hstep, hc]
    simp [Nat.add_comm]
  · rw [foldl_absorb_sampleSubject]
    by_cases hsub : m0.subject = ""
    · rw [hsamp]
      simp [hsub, optTruthy]
    · rw [hsamp]
      have htr : optTruthy (some m0.subject) = true := by simpa [optTruthy] using hsub
      simp [hsub, htr]
  · rw [foldl_absorb_lastSeen, hlast]
    cases rest with
    | nil => simp [max_eq_right (empty_le m0.dateIso)]
    | cons m2 ms2 => simp [max_eq_right (empty_le m0.dateIso)]
  · rw [foldl_absorb_unsubUrl, hurl]
    rcases hm : msgUrl m0 with _ | x
    · simp [optTruthy, List.filterMap_cons, hm]
    · have htr : optTruthy (some x) = true := by
        simpa [optTruthy] using msgUrl_ne_empty m0 x hm
      simp [List.filterMap_cons, hm, htr]
  · rw [foldl_absorb_unsubMailto, hmto]
    rcases hm : msgMailto m0 with _ | x
    · simp [optTruthy, List.filterMap_cons, hm]
    · have htr : optTruthy (some x) = true := by
        simpa [optTruthy] using msgMailto_ne_empty m0 x hm
      simp [List.filterMap_cons, hm, htr]

end InboxScan

namespace InboxScan

/-- C7 witness: the spec's concrete sequences — subjects `"", "A", "B"`
give `sampleSubject = "A"`, and timestamps January, March, February (arrival
order) give the March value as `lastSeen`. -/
theorem single_key_aggregation_witness :
    (∀ m ∈ [msgS1, msgS2, msgS3], msgKey m = some "a@x.co") ∧
    ∃ bkt, processMessages [msgS1, msgS2, msgS3] [] = [("a@x.co", bkt)] ∧
      bkt.sampleSubject = some "A" ∧ bkt.lastSeen = some "2024-03-01T00:00:00Z" := by
  have hyp : ∀ m ∈ [msgS1, msgS2, msgS3], msgKey m = some "a@x.co" := by decide
  obtain ⟨bkt, he, _, hs, hl, _, _⟩ :=
    single_key_aggregation msgS1 [msgS2, msgS3] "a@x.co" hyp
  refine ⟨hyp, bkt, he, ?_, ?_⟩
  · rw [hs]; decide
  · rw [hl]
    have e1 : (([msgS1, msgS2, msgS3].map Msg.dateIso).foldl max "")
        = "2024-03-01T00:00:00Z" := by
      show List.foldl max ""
        ["2024-01-01T00:00:00Z", "2024-03-01T00:00:00Z", "2024-02-01T00:00:00Z"] = _
      have l1 : ("2024-01-01T00:00:00Z" : String) < "2024-03-01T00:00:00Z" :=
        strLt_iff.mp (by decide)
      have l2 : ("2024-02-01T00:00:00Z" : String) < "2024-03-01T00:00:00Z" :=
        strLt_iff.mp (by decide)
      rw [List.foldl_cons, List.foldl_cons, List.foldl_cons, List.foldl_nil]
      rw [max_eq_right (empty_le _)]
      rw [max_eq_right (le_of_lt l1)]
      rw [max_eq_left (le_of_lt l2)]
    rw [e1]

end InboxScan

namespace InboxScan

theorem char_toNat_ofNat (n : Nat) (h : n.isValidChar) : (Char.ofNat n).toNat = n := by
  rw [Char.ofNat, dif_pos h]
  rfl

theorem toLower_idem (c : Char) : Char.toLower (Char.toLower c) = Char.toLower c := by
  unfold Char.toLower
  by_cases h : c.toNat ≥ 65 ∧ c.toNat ≤ 90
  · rw [if_pos h]
    have hv : (c.toNat + 32).isValidChar := Or.inl (by omega)
    have ht : (Char.ofNat (c.toNat + 32)).toNat = c.toNat + 32 := char_toNat_ofNat _ hv
    rw [ht, if_neg (by omega)]
  · rw [if_neg h, if_neg h]

theorem jsToLower_idem (s : String) : jsToLower (jsToLower s) = jsToLower s := by
  unfold jsToLower
  refine congrArg String.mk ?_
  show List.map Char.toLower (List.map Char.toLower s.data) = _
  rw [List.map_map]
  exact List.map_congr_left (fun c _ => toLower_idem c)

theorem parseFrom_email_lowercased (raw : String) :
    jsToLower (parseFrom raw).email = (parseFrom raw).email := by
  unfold parseFrom
  dsimp only
  rcases angleMatch raw.data with _ | inner
  · rcases bareSearch raw.data with _ | matched
    · dsimp only
      split_ifs <;> simp_all [jsToLower]
    · dsimp only
      split_ifs with h
      · exact jsToLower_idem _
      · simp_all [jsToLower]
  · dsimp only
    split_ifs with h
    · exact jsToLower_idem _
    · simp_all [jsToLower]

theorem rmUpdate_email_inv (rm : RunMap) (k s d : String) (u : Option UnsubInfo)
    (h : ∀ e ∈ rm, e.2.email = e.1) :
    ∀ e ∈ rmUpdate rm k (absorb s d u), e.2.email = e.1 := by
  intro e he
  rcases List.mem_map.mp he with ⟨e0, he0, heq⟩
  by_cases hk : e0.1 = k
  · rw [if_pos hk] at heq
    rw [← heq]
    show (absorb s d u e0.2).email = e0.1
    rw [absorb_email]
    exact h e0 he0
  · rw [if_neg hk] at heq
    rw [← heq]
    exact h e0 he0

theorem processRecord_email_key (rm : RunMap) (m : Msg)
    (h : ∀ e ∈ rm, e.2.email = e.1) :
    ∀ e ∈ processRecord rm m, e.2.email = e.1 := by
  unfold processRecord
  by_cases h1 : ¬ m.inInbox
  · rw [if_pos (by simpa using h1)]
    exact h
  · rw [if_neg (by simpa using h1)]
    dsimp only
    by_cases h2 : (parseFrom m.rawFrom).email = ""
    · rw [if_pos h2]
      exact h
    · rw [if_neg h2]
      refine rmUpdate_email_inv _ _ _ _ _ ?_
      split_ifs
      · intro e he
        rcases List.mem_append.mp he with hin | hin
        · exact h e hin
        · have : e = (jsToLower (parseFrom m.rawFrom).email,
              freshBucket (parseFrom m.rawFrom).email (parseFrom m.rawFrom).name) := by
            simpa using hin
          rw [this]
          exact (parseFrom_email_lowercased m.rawFrom).symm
      · exact h

theorem processMessages_email_key (msgs : List Msg) :
    ∀ rm : RunMap, (∀ e ∈ rm, e.2.email = e.1) →
    ∀ e ∈ processMessages msgs rm, e.2.email = e.1 := by
  induction msgs with
  | nil => intro rm h; exact h
  | cons m ms ih =>
    intro rm h
    exact ih (processRecord rm m) (processRecord_email_key rm m h)

end InboxScan

namespace InboxScan

theorem pageAt_length_eq (s1 s2 : Source) (hlen : s1.length = s2.length) (c n : Nat) :
    (pageAt s1 c n).length = (pageAt s2 c n).length := by
  simp [pageAt, List.length_take, List.length_drop, hlen]

theorem pageAt_getD (s : Source) (c n j : Nat) :
    (pageAt s c n).getD j [] = if j < n then s.getD (c + j) [] else [] := by
  unfold pageAt
  rw [List.getD_eq_getElem?_getD, List.getD_eq_getElem?_getD]
  by_cases hj : j < n
  · rw [if_pos hj, List.getElem?_take, if_pos hj, List.getElem?_drop]
  · rw [if_neg hj, List.getElem?_take, if_neg hj]
    rfl

theorem pageAt_nil_iff (s1 s2 : Source) (hlen : s1.length = s2.length) (c n : Nat) :
    (pageAt s1 c n = [] ↔ pageAt s2 c n = []) := by
  rw [← List.length_eq_zero, ← List.length_eq_zero, pageAt_length_eq s1 s2 hlen]

theorem innerLoop_congr (cfg : ScanConfig) (ts1 : List Thread) :
    ∀ ts2 : List Thread, ts1.length = ts2.length →
    (∀ j rm, threadEffect (ts1.getD j []) rm = threadEffect (ts2.getD j []) rm) →
    ∀ rm clock, innerLoop cfg ts1 rm clock = innerLoop cfg ts2 rm clock := by
  induction ts1 with
  | nil =>
    intro ts2 hlen _ rm clock
    cases ts2 with
    | nil => rfl
    | cons t ts => simp at hlen
  | cons t1 ts1 ih =>
    intro ts2 hlen hpt rm clock
    cases ts2 with
    | nil => simp at hlen
    | cons t2 ts2 =>
      unfold innerLoop
      by_cases hb : cfg.hardLimitTicks < clock
      · rw [if_pos hb, if_pos hb]
      · rw [if_neg hb, if_neg hb]
        have h0 : threadEffect t1 rm = threadEffect t2 rm := hpt 0 rm
        rw [h0]
        exact ih ts2 (by simpa using hlen) (fun j rm' => hpt (j + 1) rm') _ _

theorem mainLoop_congr (cfg : ScanConfig) (s1 s2 : Source)
    (hlen : s1.length = s2.length)
    (hpt : ∀ j rm, threadEffect (s1.getD j []) rm = threadEffect (s2.getD j []) rm) :
    ∀ fuel st, mainLoop cfg s1 fuel st = mainLoop cfg s2 fuel st := by
  intro fuel
  induction fuel with
  | zero => intro st; rfl
  | succ fuel ih =>
    intro st
    unfold mainLoop
    by_cases hb : cfg.hardLimitTicks < st.clock
    · rw [if_pos hb, if_pos hb]
    · rw [if_neg hb, if_neg hb]
      have hpg : ∀ j rm, threadEffect ((pageAt s1 st.cursor cfg.pageSize).getD j []) rm
          = threadEffect ((pageAt s2 st.cursor cfg.pageSize).getD j []) rm := by
        intro j rm
        rw [pageAt_getD, pageAt_getD]
        by_cases hj : j < cfg.pageSize
        · rw [if_pos hj, if_pos hj]
          exact hpt (st.cursor + j) rm
        · rw [if_neg hj, if_neg hj]
      have hil : innerLoop cfg (pageAt s1 st.cursor cfg.pageSize) st.runMap st.clock
          = innerLoop cfg (pageAt s2 st.cursor cfg.pageSize) st.runMap st.clock :=
        innerLoop_congr cfg _ _
          (pageAt_length_eq s1 s2 hlen st.cursor cfg.pageSize) hpg st.runMap st.clock
      have hplen := pageAt_length_eq s1 s2 hlen st.cursor cfg.pageSize
      by_cases h0 : pageAt s1 st.cursor cfg.pageSize = []
      · rw [if_pos h0, if_pos ((pageAt_nil_iff s1 s2 hlen _ _).mp h0)]
      · rw [if_neg h0, if_neg (fun hc => h0 ((pageAt_nil_iff s1 s2 hlen _ _).mpr hc))]
        rw [← hil, ← hplen]
        exact ih _

theorem buildSenderReportBatch_congr (cfg : ScanConfig) (s1 s2 : Source) (fuel : Nat)
    (p0 : Props) (sh0 : Sheet) (ix0 : IndexSheet)
    (hlen : s1.length = s2.length)
    (hpt : ∀ j rm, threadEffect (s1.getD j []) rm = threadEffect (s2.getD j []) rm) :
    buildSenderReportBatch cfg s1 fuel p0 sh0 ix0
      = buildSenderReportBatch cfg s2 fuel p0 sh0 ix0 := by
  unfold buildSenderReportBatch
  have hn : ∀ c, (pageAt s1 c 1 = []) = (pageAt s2 c 1 = []) :=
    fun c => propext (pageAt_nil_iff s1 s2 hlen c 1)
  simp only [hn, mainLoop_congr cfg s1 s2 hlen hpt]

end InboxScan

namespace InboxScan

/-- C9 (confirmed): a record whose originator matches neither the
angle-bracket strategy nor the bare address pattern normalizes to no key and
is skipped with no effect on the cycle: `processRecord` is the identity on
the run map, inserting the record anywhere in a message list leaves
`processMessages` unchanged, and splicing it into any thread of the source
leaves the whole driver run — store, index, cursor accounting and resumption
state — unchanged. -/
theorem unparsable_record_skipped (m : Msg)
    (h1 : angleMatch m.rawFrom.data = none) (h2 : bareSearch m.rawFrom.data = none) :
    (parseFrom m.rawFrom).email = "" ∧
    (∀ rm, processRecord rm m = rm) ∧
    (∀ pre post rm, processMessages (pre ++ m :: post) rm = processMessages (pre ++ post) rm) ∧
    (∀ cfg src fuel p0 sh0 ix0 (i : Nat) pre post, src.getD i [] = pre ++ m :: post →
      buildSenderReportBatch cfg (src.set i (pre ++ post)) fuel p0 sh0 ix0
        = buildSenderReportBatch cfg src fuel p0 sh0 ix0) := by
  have he : (parseFrom m.rawFrom).email = "" := by
    simp [parseFrom, h1, h2]
  have hskip : ∀ rm, processRecord rm m = rm := by
    intro rm
    unfold processRecord
    by_cases hi : m.inInbox
    · rw [if_neg (by simpa using hi)]
      dsimp only
      rw [if_pos he]
    · rw [if_pos (by simpa using hi)]
  have hins : ∀ pre post rm,
      processMessages (pre ++ m :: post) rm = processMessages (pre ++ post) rm := by
    intro pre post rm
    unfold processMessages
    rw [List.foldl_append, List.foldl_append, List.foldl_cons, hskip]
  refine ⟨he, hskip, hins, ?_⟩
  intro cfg src fuel p0 sh0 ix0 i pre post hsrc
  have hlt : i < src.length := by
    by_contra hge
    rw [List.getD_eq_getElem?_getD, List.getElem?_eq_none (by omega)] at hsrc
    simp at hsrc
  apply buildSenderReportBatch_congr
  · rw [List.length_set]
  · intro j rm
    by_cases hij : j = i
    · subst hij
      have hset : (src.set j (pre ++ post)).getD j [] = pre ++ post := by
        rw [List.getD_eq_getElem?_getD, List.getElem?_set_self (by simpa using hlt)]
        rfl
      rw [hset, hsrc]
      by_cases hnil : pre ++ post = []
      · rcases List.append_eq_nil.mp hnil with ⟨hp, hq⟩
        subst hp; subst hq
        show threadEffect [] rm = threadEffect [m] rm
        unfold threadEffect
        rw [if_pos rfl, if_neg (by simp)]
        show rm = processRecord rm m
        rw [hskip]
      · unfold threadEffect
        rw [if_neg hnil, if_neg (by simp)]
        exact (hins pre post rm).symm
    · rw [List.getD_eq_getElem?_getD, List.getD_eq_getElem?_getD,
          List.getElem?_set_ne (fun hc => hij hc.symm)]

end InboxScan

namespace InboxScan


/-- C9 witness: the originator `no address here` fails both extraction
strategies, parses to no key, and its record leaves the run map untouched. -/
theorem unparsable_record_skipped_witness :
    (angleMatch msgNoAddr.rawFrom.data = none ∧ bareSearch msgNoAddr.rawFrom.data = none) ∧
    (parseFrom msgNoAddr.rawFrom).email = "" ∧
    processRecord [("k", bucketB2)] msgNoAddr = [("k", bucketB2)] := by
  refine ⟨⟨by decide, by decide⟩, ?_, ?_⟩
  · exact (unparsable_record_skipped msgNoAddr (by decide) (by decide)).1
  · exact (unparsable_record_skipped msgNoAddr (by decide) (by decide)).2.1 [("k", bucketB2)]

/-- C10 (amended): every Store Record created for a new key is initialized
with `actFlag = false`, empty notes and empty processed timestamp, and it
stores the sender address exactly as the bucket carries it — the
normalizer's case-folded form, identical to the Index key (every bucket's
email equals its run-map key). -/
theorem new_row_initialization (b : SenderBucket) :
    ((buildRowFromBucket b).act = false ∧ (buildRowFromBucket b).notes = "" ∧
     (buildRowFromBucket b).processed = "" ∧ (buildRowFromBucket b).email = b.email) ∧
    (∀ msgs : List Msg, ∀ e ∈ processMessages msgs [], e.2.email = e.1) :=
  ⟨⟨rfl, rfl, rfl, rfl⟩, fun msgs => processMessages_email_key msgs [] (by simp)⟩

/-- C10 amended-theorem witness: for the `Alice <Alice@Example.COM>` record
the bucket is stored under key `alice@example.com` and its email field
equals that key. -/
theorem new_row_initialization_witness :
    (("alice@example.com",
        (⟨"alice@example.com", some "Alice", 1, some "s", some "2024-01-01", none, none⟩ : SenderBucket))
      ∈ processMessages [msgAlice] []) ∧
    (⟨"alice@example.com", some "Alice", 1, some "s", some "2024-01-01", none, none⟩
        : SenderBucket).email = "alice@example.com" := by
  refine ⟨by decide, ?_⟩
  exact (new_row_initialization bucketA1).2 [msgAlice]
    ("alice@example.com",
      (⟨"alice@example.com", some "Alice", 1, some "s", some "2024-01-01", none, none⟩
        : SenderBucket))
    (by decide)

end InboxScan
section SanityChecks
open InboxScan

example : (parseFrom "John Doe <John@Example.COM>").email = "john@example.com" := by decide
example : (parseFrom "John Doe <John@Example.COM>").name = some "John Doe" := by decide
example : (parseFrom "foo@bar.com (Foo)").email = "foo@bar.com" := by decide
example : (parseFrom "no address here").email = "" := by decide
example : (parseFrom "a@@b.co").email = "" := by decide
example : (parseFrom "x a@b.c@d.com y").email = "b.c@d.com" := by decide
example : parseListUnsubscribeHeader "<https://u.example/x>, <mailto:u@example.com>"
    = some ⟨some "https://u.example/x", some "mailto:u@example.com"⟩ := by decide
example : parseListUnsubscribeHeader "" = none := by decide

-- aggregation sanity: two messages from the same sender
example :
    processMessages
      [⟨true, "<a@x.co>", "s1", "2024-01-01", ""⟩, ⟨true, "<a@x.co>", "s2", "2024-02-01", ""⟩] []
    = [("a@x.co", ⟨"a@x.co", none, 2, some "s1", some "2024-02-01", none, none⟩)] := by decide

-- merge sanity: fresh store, two new senders, sort by count desc swaps them
example :
    mergeRunMapUsingIndex [] []
      [("a@x.co", ⟨"a@x.co", none, 1, none, none, none, none⟩),
       ("b@x.co", ⟨"b@x.co", none, 2, none, none, none, none⟩)]
    = ([⟨false, "b@x.co", "", 2, "", "", "", "", "", ""⟩,
        ⟨false, "a@x.co", "", 1, "", "", "", "", "", ""⟩],
       [("a@x.co", 2), ("b@x.co", 3)]) := by decide

end SanityChecks
